import Mathlib

/-!
Shallow embedding of the cuautograde core (runner.py and executor.py):
the SynchronizedTestResult aggregator, the TimeoutTestRunner orchestration,
and the distribute_system_command job dispatcher, together with proofs of
the specified properties.

Test objects are modelled by an opaque type `T` with decidable equality
(Python object identity/equality on test-case instances); `tid : T → String`
models `test.id()`; test classes are an opaque type `C`.
-/

universe u

/-- State of one `SynchronizedTestResult` (runner.py lines 170-212).
`errors`, `failures`, `skipped`, `expectedFailures` hold (test, detail) pairs;
`successes` and `unexpectedSuccesses` hold bare tests; `frozen` is the freeze
flag set by `freeze()`. The `errors`/`failures`/`skipped`/`expectedFailures`/
`unexpectedSuccesses` lists come from `unittest.TestResult.__init__`; the
`successes` list and `frozen` flag are initialised in `__init__`. -/
structure TestState (T : Type u) where
  frozen : Bool
  errors : List (T × String)
  failures : List (T × String)
  successes : List T
  skipped : List (T × String)
  expectedFailures : List (T × String)
  unexpectedSuccesses : List T
deriving DecidableEq

/-- The state of a freshly constructed `SynchronizedTestResult()`. -/
def initTestState {T : Type u} : TestState T :=
  ⟨false, [], [], [], [], [], []⟩

/-- `addError(test, err)` (runner.py lines 180-183): append `(test, detail)`
to `errors` unless frozen.  The detail string produced by
`traceback.format_exc(err)` is modelled as an opaque string argument. -/
def addError {T : Type u} (s : TestState T) (t : T) (detail : String) : TestState T :=
  if s.frozen then s else { s with errors := s.errors ++ [(t, detail)] }

/-- `addFailure(test, err)` (runner.py lines 185-188). -/
def addFailure {T : Type u} (s : TestState T) (t : T) (detail : String) : TestState T :=
  if s.frozen then s else { s with failures := s.failures ++ [(t, detail)] }

/-- `addSuccess(test)` (runner.py lines 190-193). -/
def addSuccess {T : Type u} (s : TestState T) (t : T) : TestState T :=
  if s.frozen then s else { s with successes := s.successes ++ [t] }

/-- `addSkip(test, reason)` (runner.py lines 195-198). -/
def addSkip {T : Type u} (s : TestState T) (t : T) (reason : String) : TestState T :=
  if s.frozen then s else { s with skipped := s.skipped ++ [(t, reason)] }

/-- `addExpectedFailure(test, err)` (runner.py lines 200-203). -/
def addExpectedFailure {T : Type u} (s : TestState T) (t : T) (detail : String) : TestState T :=
  if s.frozen then s else { s with expectedFailures := s.expectedFailures ++ [(t, detail)] }

/-- `addUnexpectedSuccess(test)` (runner.py lines 205-208). -/
def addUnexpectedSuccess {T : Type u} (s : TestState T) (t : T) : TestState T :=
  if s.frozen then s else { s with unexpectedSuccesses := s.unexpectedSuccesses ++ [t] }

/-- `freeze()` (runner.py lines 210-212): set the frozen flag. -/
def freeze {T : Type u} (s : TestState T) : TestState T :=
  { s with frozen := true }

/-- One public mutating operation on the aggregator. -/
inductive AggregatorOp (T : Type u) where
  | opAddError (t : T) (detail : String)
  | opAddFailure (t : T) (detail : String)
  | opAddSuccess (t : T)
  | opAddSkip (t : T) (reason : String)
  | opAddExpectedFailure (t : T) (detail : String)
  | opAddUnexpectedSuccess (t : T)
  | opFreeze

/-- Apply one aggregator operation to a state. -/
def applyOp {T : Type u} (s : TestState T) : AggregatorOp T → TestState T
  | .opAddError t d => addError s t d
  | .opAddFailure t d => addFailure s t d
  | .opAddSuccess t => addSuccess s t
  | .opAddSkip t r => addSkip s t r
  | .opAddExpectedFailure t d => addExpectedFailure s t d
  | .opAddUnexpectedSuccess t => addUnexpectedSuccess s t
  | .opFreeze => freeze s

lemma applyOp_of_frozen {T : Type u} (s : TestState T) (h : s.frozen = true)
    (op : AggregatorOp T) : applyOp s op = s := by
  cases op <;>
    simp [applyOp, addError, addFailure, addSuccess, addSkip, addExpectedFailure,
      addUnexpectedSuccess, freeze, h]
  cases s
  simp_all

/-- C2: after `freeze()` has set the frozen flag, every subsequent sequence of
record operations (and further freezes) leaves the visible aggregator state,
all six recorded collections and the frozen flag included, unchanged: the
frozen aggregator never accepts writes again. -/
theorem frozen_aggregator_ops_noop {T : Type u} (s : TestState T)
    (h : s.frozen = true) (ops : List (AggregatorOp T)) :
    ops.foldl applyOp s = s := by
  induction ops with
  | nil => rfl
  | cons op rest ih =>
    simp only [List.foldl_cons, applyOp_of_frozen s h op, ih]

theorem frozen_aggregator_ops_noop_witness :
    (freeze (addSuccess initTestState "a.b.c")).frozen = true ∧
      [AggregatorOp.opAddFailure "a.b.d" "boom", AggregatorOp.opAddSuccess "a.b.e",
        AggregatorOp.opFreeze].foldl applyOp (freeze (addSuccess initTestState "a.b.c")) =
        freeze (addSuccess initTestState "a.b.c") :=
  ⟨rfl, frozen_aggregator_ops_noop _ rfl _⟩

/-- Python `s.split(sep)` for a one-character separator, on the character
list of the string: `"".split(".") = [""]`, and separators delimit (possibly
empty) groups. -/
def splitOnDot (sep : Char) : List Char → List (List Char)
  | [] => [[]]
  | x :: xs =>
    let r := splitOnDot sep xs
    if x = sep then [] :: r
    else
      match r with
      | [] => [[x]]
      | g :: gs => (x :: g) :: gs

/-- The third dot-separated component of a test id string, `func_name` in
`mod_name, class_name, func_name = test.id().split(".")`. -/
def funcNameOf (tidStr : String) : String :=
  String.mk ((splitOnDot (Char.ofNat 46) tidStr.data).getD 2 [])

/-- `getStatusAsString(test)` (runner.py lines 214-231).  The test id is split
on dots; the code unpacks it into exactly three names (`mod_name, class_name,
func_name`), raising `ValueError` otherwise, which is modelled by returning
`none` unless the split has exactly three parts.  Each guard
`len(lst) > 0 and test in zip(*lst)[0]` is membership of the test among the
first components (`zip(*lst)[0]` would raise on an empty list, hence the
length guard). -/
def getStatusAsString {T : Type u} [DecidableEq T] (tid : T → String)
    (s : TestState T) (t : T) : Option String :=
  if (splitOnDot (Char.ofNat 46) (tid t).data).length = 3 then
    some
      (if s.errors ≠ [] ∧ t ∈ s.errors.map Prod.fst then
        "Completed with error: " ++ funcNameOf (tid t)
      else if s.failures ≠ [] ∧ t ∈ s.failures.map Prod.fst then
        "Completed with failure: " ++ funcNameOf (tid t)
      else if s.successes ≠ [] ∧ t ∈ s.successes then
        "Completed with success: " ++ funcNameOf (tid t)
      else if s.skipped ≠ [] ∧ t ∈ s.skipped.map Prod.fst then
        "Skipped: " ++ funcNameOf (tid t)
      else if s.expectedFailures ≠ [] ∧ t ∈ s.expectedFailures.map Prod.fst then
        "Completed with expected failure: " ++ funcNameOf (tid t)
      else if s.unexpectedSuccesses ≠ [] ∧ t ∈ s.unexpectedSuccesses then
        "Completed with unexpected success: " ++ funcNameOf (tid t)
      else "Not completed: " ++ funcNameOf (tid t))
  else none

/-- Display classification as the spec words it: search the categories in the
fixed precedence order error, failure, success, skip, expectedFailure,
unexpectedSuccess and report the first category containing the test; a test
found in none of the six is reported as not completed.  Stated independently
of the source function so the two can be compared. -/
def statusBySpecPrecedence {T : Type u} [DecidableEq T] (tid : T → String)
    (s : TestState T) (t : T) : String :=
  if t ∈ s.errors.map Prod.fst then
    "Completed with error: " ++ funcNameOf (tid t)
  else if t ∈ s.failures.map Prod.fst then
    "Completed with failure: " ++ funcNameOf (tid t)
  else if t ∈ s.successes then
    "Completed with success: " ++ funcNameOf (tid t)
  else if t ∈ s.skipped.map Prod.fst then
    "Skipped: " ++ funcNameOf (tid t)
  else if t ∈ s.expectedFailures.map Prod.fst then
    "Completed with expected failure: " ++ funcNameOf (tid t)
  else if t ∈ s.unexpectedSuccesses then
    "Completed with unexpected success: " ++ funcNameOf (tid t)
  else "Not completed: " ++ funcNameOf (tid t)

/-- C9: on any well-formed test id (three dot-separated parts), the display
classification of `getStatusAsString` is exactly the first match in the
precedence order error, failure, success, skip, expectedFailure,
unexpectedSuccess, with tests in none of the six reported as not completed. -/
theorem getStatusAsString_eq_spec_precedence {T : Type u} [DecidableEq T]
    (tid : T → String) (s : TestState T) (t : T)
    (h3 : (splitOnDot (Char.ofNat 46) (tid t).data).length = 3) :
    getStatusAsString tid s t = some (statusBySpecPrecedence tid s t) := by
  have key : ∀ (γ : Type u) (l : List γ) (P : Prop) [Decidable P],
      (P → l ≠ []) → ((l ≠ [] ∧ P) ↔ P) := by
    intro γ l P _ hP
    constructor
    · exact fun h => h.2
    · exact fun hp => ⟨hP hp, hp⟩
  have e1 := key _ s.errors (t ∈ s.errors.map Prod.fst)
    (fun h he => by rw [he] at h; simp at h)
  have e2 := key _ s.failures (t ∈ s.failures.map Prod.fst)
    (fun h he => by rw [he] at h; simp at h)
  have e3 := key _ s.successes (t ∈ s.successes)
    (fun h he => by rw [he] at h; simp at h)
  have e4 := key _ s.skipped (t ∈ s.skipped.map Prod.fst)
    (fun h he => by rw [he] at h; simp at h)
  have e5 := key _ s.expectedFailures (t ∈ s.expectedFailures.map Prod.fst)
    (fun h he => by rw [he] at h; simp at h)
  have e6 := key _ s.unexpectedSuccesses (t ∈ s.unexpectedSuccesses)
    (fun h he => by rw [he] at h; simp at h)
  simp only [getStatusAsString, statusBySpecPrecedence, if_pos h3, e1, e2, e3, e4, e5, e6]

theorem getStatusAsString_eq_spec_precedence_witness :
    getStatusAsString (fun x => x)
        (addFailure (addSuccess initTestState "m.c.f") "m.c.f" "trace") "m.c.f" =
      some (statusBySpecPrecedence (fun x => x)
        (addFailure (addSuccess initTestState "m.c.f") "m.c.f" "trace") "m.c.f") :=
  getStatusAsString_eq_spec_precedence _ _ _ (by decide)

/-- A `unittest` test suite tree as traversed by `list_of_tests_gen` and
`process_test_cases`: leaves are test cases carrying their class (an opaque
type `C`) and the test object itself (`T`); internal nodes are suites. -/
inductive TestEntity (C : Type u) (T : Type u) where
  | case (cls : C) (t : T)
  | suite (children : List (TestEntity C T))

mutual

/-- `list_of_tests_gen(s)` (runner.py lines 53-60): yield the test cases of a
suite tree in left-to-right order. -/
def listOfTestsGen {C T : Type u} : TestEntity C T → List T
  | .case _ t => [t]
  | .suite ts => listOfTestsGenList ts

/-- Traversal of a list of suite children, for `listOfTestsGen`. -/
def listOfTestsGenList {C T : Type u} : List (TestEntity C T) → List T
  | [] => []
  | e :: es => listOfTestsGen e ++ listOfTestsGenList es

end

/-- The JSON object built by `summarize` (runner.py lines 233-248): the four
dict-shaped categories hold (test id, detail) pairs, the two list-shaped ones
hold test ids, `allTests` maps test ids to docstrings (possibly absent), and
`aborted` is the list of known test ids in no recorded category.  Python
dicts are modelled as association lists; key membership is what the theorems
speak about. -/
structure Summary where
  errors : List (String × String)
  failures : List (String × String)
  successes : List String
  skipped : List (String × String)
  expectedFailures : List (String × String)
  unexpectedSuccesses : List String
  allTests : List (String × Option String)
  aborted : List String
deriving DecidableEq

/-- The union `set().union(...)` of the six recorded categories by test id
(runner.py lines 244-246), as a list whose membership is the set membership. -/
def processedUnion {T : Type u} (tid : T → String) (s : TestState T) : List String :=
  s.errors.map (fun p => tid p.1) ++ s.failures.map (fun p => tid p.1) ++
    s.successes.map tid ++ s.skipped.map (fun p => tid p.1) ++
    s.expectedFailures.map (fun p => tid p.1) ++ s.unexpectedSuccesses.map tid

/-- `summarize(all_tests)` (runner.py lines 233-248).  `tid` models
`test.id()`, `docFor` models `doc_for` (a docstring may be absent).  The
`aborted` entry is `set(x.id() for x in all_tests) - processed_union` turned
into a list; the set is modelled by deduplicating the known ids and keeping
those outside the union (set iteration order is unspecified, membership is
faithful). -/
def summarize {C T : Type u} (tid : T → String) (docFor : T → Option String)
    (s : TestState T) (entity : TestEntity C T) : Summary :=
  { errors := s.errors.map (fun p => (tid p.1, p.2))
    failures := s.failures.map (fun p => (tid p.1, p.2))
    successes := s.successes.map tid
    skipped := s.skipped.map (fun p => (tid p.1, p.2))
    expectedFailures := s.expectedFailures.map (fun p => (tid p.1, p.2))
    unexpectedSuccesses := s.unexpectedSuccesses.map tid
    allTests := (listOfTestsGen entity).map (fun t => (tid t, docFor t))
    aborted := ((listOfTestsGen entity).map tid).dedup.filter
      (fun x => decide (x ∉ processedUnion tid s)) }

/-- Membership flags of one test id in the seven Summary categories, in the
order success claims list them is irrelevant; what matters is that exactly
one flag is set.  Dict-shaped categories are tested on their key sets. -/
def categoryFlags (sm : Summary) (x : String) : List Bool :=
  [decide (x ∈ sm.errors.map Prod.fst), decide (x ∈ sm.failures.map Prod.fst),
    decide (x ∈ sm.successes), decide (x ∈ sm.skipped.map Prod.fst),
    decide (x ∈ sm.expectedFailures.map Prod.fst), decide (x ∈ sm.unexpectedSuccesses),
    decide (x ∈ sm.aborted)]

/-- The Summary assigns every known test id to exactly one of the seven
categories, and assigns nothing outside the known test ids. -/
def isPartitionOfAllTests (sm : Summary) : Prop :=
  ∀ x : String,
    (x ∈ sm.allTests.map Prod.fst → (categoryFlags sm x).count true = 1) ∧
    (x ∉ sm.allTests.map Prod.fst → (categoryFlags sm x).count true = 0)

/-- The six recorded categories of an aggregator state, as lists of test ids. -/
def recordedKeyLists {T : Type u} (tid : T → String) (s : TestState T) :
    List (List String) :=
  [s.errors.map (fun p => tid p.1), s.failures.map (fun p => tid p.1),
    s.successes.map tid, s.skipped.map (fun p => tid p.1),
    s.expectedFailures.map (fun p => tid p.1), s.unexpectedSuccesses.map tid]

/-- No test id is recorded in more than one of the six categories (the data
model invariant of the spec). -/
def noDoubleRecord {T : Type u} (tid : T → String) (s : TestState T) : Prop :=
  List.Pairwise List.Disjoint (recordedKeyLists tid s)

/-- Every recorded test id belongs to the known test set of the suite tree. -/
def containsAllRecorded {C T : Type u} (tid : T → String) (s : TestState T)
    (entity : TestEntity C T) : Prop :=
  ∀ x ∈ processedUnion tid s, x ∈ (listOfTestsGen entity).map tid


lemma summarize_allTests_ids {C T : Type u} (tid : T → String)
    (docFor : T → Option String) (s : TestState T) (entity : TestEntity C T) :
    (summarize tid docFor s entity).allTests.map Prod.fst =
      (listOfTestsGen entity).map tid := by
  simp [summarize]

lemma summarize_errors_keys {C T : Type u} (tid : T → String)
    (docFor : T → Option String) (s : TestState T) (entity : TestEntity C T) :
    (summarize tid docFor s entity).errors.map Prod.fst =
      s.errors.map (fun p => tid p.1) := by
  simp [summarize]

lemma summarize_failures_keys {C T : Type u} (tid : T → String)
    (docFor : T → Option String) (s : TestState T) (entity : TestEntity C T) :
    (summarize tid docFor s entity).failures.map Prod.fst =
      s.failures.map (fun p => tid p.1) := by
  simp [summarize]

lemma summarize_successes_ids {C T : Type u} (tid : T → String)
    (docFor : T → Option String) (s : TestState T) (entity : TestEntity C T) :
    (summarize tid docFor s entity).successes = s.successes.map tid := rfl

lemma summarize_skipped_keys {C T : Type u} (tid : T → String)
    (docFor : T → Option String) (s : TestState T) (entity : TestEntity C T) :
    (summarize tid docFor s entity).skipped.map Prod.fst =
      s.skipped.map (fun p => tid p.1) := by
  simp [summarize]

lemma summarize_expectedFailures_keys {C T : Type u} (tid : T → String)
    (docFor : T → Option String) (s : TestState T) (entity : TestEntity C T) :
    (summarize tid docFor s entity).expectedFailures.map Prod.fst =
      s.expectedFailures.map (fun p => tid p.1) := by
  simp [summarize]

lemma summarize_unexpectedSuccesses_ids {C T : Type u} (tid : T → String)
    (docFor : T → Option String) (s : TestState T) (entity : TestEntity C T) :
    (summarize tid docFor s entity).unexpectedSuccesses =
      s.unexpectedSuccesses.map tid := rfl

lemma summarize_mem_aborted {C T : Type u} (tid : T → String)
    (docFor : T → Option String) (s : TestState T) (entity : TestEntity C T)
    (x : String) :
    x ∈ (summarize tid docFor s entity).aborted ↔
      x ∈ (listOfTestsGen entity).map tid ∧ x ∉ processedUnion tid s := by
  simp [summarize, List.mem_filter, List.mem_dedup]

lemma mem_processedUnion_iff {T : Type u} (tid : T → String) (s : TestState T)
    (x : String) :
    x ∈ processedUnion tid s ↔
      x ∈ s.errors.map (fun p => tid p.1) ∨ x ∈ s.failures.map (fun p => tid p.1) ∨
        x ∈ s.successes.map tid ∨ x ∈ s.skipped.map (fun p => tid p.1) ∨
        x ∈ s.expectedFailures.map (fun p => tid p.1) ∨
        x ∈ s.unexpectedSuccesses.map tid := by
  simp only [processedUnion, List.mem_append, or_assoc]

/-- C1 (amended): for every frozen aggregator state in which no test id is
recorded in more than one of the six categories, and every known test suite
whose ids contain all recorded ids, the produced Summary assigns each known
test id to exactly one of the seven categories, and assigns no unknown id to
any category: the seven categories partition the known test ids. -/
theorem summarize_partitions_allTests {C T : Type u} [DecidableEq T]
    (tid : T → String) (docFor : T → Option String) (s : TestState T)
    (entity : TestEntity C T) (_hfroz : s.frozen = true)
    (hsub : containsAllRecorded tid s entity) (hone : noDoubleRecord tid s) :
    isPartitionOfAllTests (summarize tid docFor s entity) := by
  simp only [noDoubleRecord, recordedKeyLists, List.pairwise_cons, List.forall_mem_cons,
    List.forall_mem_nil, List.Pairwise.nil, and_true] at hone
  obtain ⟨⟨d12, d13, d14, d15, d16, -⟩, ⟨d23, d24, d25, d26, -⟩, ⟨d34, d35, d36, -⟩,
    ⟨d45, d46, -⟩, ⟨d56, -⟩, -⟩ := hone
  intro x
  have hab := summarize_mem_aborted tid docFor s entity x
  constructor
  · intro hx
    rw [summarize_allTests_ids] at hx
    by_cases hu : x ∈ processedUnion tid s
    · have habf : x ∉ (summarize tid docFor s entity).aborted := by
        rw [hab]; exact fun h => h.2 hu
      have hu6 := (mem_processedUnion_iff tid s x).mp hu
      rcases hu6 with h1 | h2 | h3 | h4 | h5 | h6
      · have e : categoryFlags (summarize tid docFor s entity) x =
            [true, false, false, false, false, false, false] := by
          simp only [categoryFlags, summarize_errors_keys, summarize_failures_keys,
            summarize_successes_ids, summarize_skipped_keys,
            summarize_expectedFailures_keys, summarize_unexpectedSuccesses_ids,
            decide_eq_true h1, decide_eq_false (d12 h1), decide_eq_false (d13 h1),
            decide_eq_false (d14 h1), decide_eq_false (d15 h1),
            decide_eq_false (d16 h1), decide_eq_false habf]
        rw [e]; rfl
      · have e : categoryFlags (summarize tid docFor s entity) x =
            [false, true, false, false, false, false, false] := by
          simp only [categoryFlags, summarize_errors_keys, summarize_failures_keys,
            summarize_successes_ids, summarize_skipped_keys,
            summarize_expectedFailures_keys, summarize_unexpectedSuccesses_ids,
            decide_eq_true h2, decide_eq_false (fun h => d12 h h2),
            decide_eq_false (d23 h2), decide_eq_false (d24 h2),
            decide_eq_false (d25 h2), decide_eq_false (d26 h2), decide_eq_false habf]
        rw [e]; rfl
      · have e : categoryFlags (summarize tid docFor s entity) x =
            [false, false, true, false, false, false, false] := by
          simp only [categoryFlags, summarize_errors_keys, summarize_failures_keys,
            summarize_successes_ids, summarize_skipped_keys,
            summarize_expectedFailures_keys, summarize_unexpectedSuccesses_ids,
            decide_eq_true h3, decide_eq_false (fun h => d13 h h3),
            decide_eq_false (fun h => d23 h h3), decide_eq_false (d34 h3),
            decide_eq_false (d35 h3), decide_eq_false (d36 h3), decide_eq_false habf]
        rw [e]; rfl
      · have e : categoryFlags (summarize tid docFor s entity) x =
            [false, false, false, true, false, false, false] := by
          simp only [categoryFlags, summarize_errors_keys, summarize_failures_keys,
            summarize_successes_ids, summarize_skipped_keys,
            summarize_expectedFailures_keys, summarize_unexpectedSuccesses_ids,
            decide_eq_true h4, decide_eq_false (fun h => d14 h h4),
            decide_eq_false (fun h => d24 h h4), decide_eq_false (fun h => d34 h h4),
            decide_eq_false (d45 h4), decide_eq_false (d46 h4), decide_eq_false habf]
        rw [e]; rfl
      · have e : categoryFlags (summarize tid docFor s entity) x =
            [false, false, false, false, true, false, false] := by
          simp only [categoryFlags, summarize_errors_keys, summarize_failures_keys,
            summarize_successes_ids, summarize_skipped_keys,
            summarize_expectedFailures_keys, summarize_unexpectedSuccesses_ids,
            decide_eq_true h5, decide_eq_false (fun h => d15 h h5),
            decide_eq_false (fun h => d25 h h5), decide_eq_false (fun h => d35 h h5),
            decide_eq_false (fun h => d45 h h5), decide_eq_false (d56 h5),
            decide_eq_false habf]
        rw [e]; rfl
      · have e : categoryFlags (summarize tid docFor s entity) x =
            [false, false, false, false, false, true, false] := by
          simp only [categoryFlags, summarize_errors_keys, summarize_failures_keys,
            summarize_successes_ids, summarize_skipped_keys,
            summarize_expectedFailures_keys, summarize_unexpectedSuccesses_ids,
            decide_eq_true h6, decide_eq_false (fun h => d16 h h6),
            decide_eq_false (fun h => d26 h h6), decide_eq_false (fun h => d36 h h6),
            decide_eq_false (fun h => d46 h h6), decide_eq_false (fun h => d56 h h6),
            decide_eq_false habf]
        rw [e]; rfl
    · have habt : x ∈ (summarize tid docFor s entity).aborted := by
        rw [hab]; exact ⟨hx, hu⟩
      have n1 : x ∉ s.errors.map (fun p => tid p.1) := fun h =>
        hu ((mem_processedUnion_iff tid s x).mpr (Or.inl h))
      have n2 : x ∉ s.failures.map (fun p => tid p.1) := fun h =>
        hu ((mem_processedUnion_iff tid s x).mpr (Or.inr (Or.inl h)))
      have n3 : x ∉ s.successes.map tid := fun h =>
        hu ((mem_processedUnion_iff tid s x).mpr (Or.inr (Or.inr (Or.inl h))))
      have n4 : x ∉ s.skipped.map (fun p => tid p.1) := fun h =>
        hu ((mem_processedUnion_iff tid s x).mpr (Or.inr (Or.inr (Or.inr (Or.inl h)))))
      have n5 : x ∉ s.expectedFailures.map (fun p => tid p.1) := fun h =>
        hu ((mem_processedUnion_iff tid s x).mpr
          (Or.inr (Or.inr (Or.inr (Or.inr (Or.inl h))))))
      have n6 : x ∉ s.unexpectedSuccesses.map tid := fun h =>
        hu ((mem_processedUnion_iff tid s x).mpr
          (Or.inr (Or.inr (Or.inr (Or.inr (Or.inr h))))))
      have e : categoryFlags (summarize tid docFor s entity) x =
          [false, false, false, false, false, false, true] := by
        simp only [categoryFlags, summarize_errors_keys, summarize_failures_keys,
          summarize_successes_ids, summarize_skipped_keys,
          summarize_expectedFailures_keys, summarize_unexpectedSuccesses_ids,
          decide_eq_false n1, decide_eq_false n2, decide_eq_false n3,
          decide_eq_false n4, decide_eq_false n5, decide_eq_false n6,
          decide_eq_true habt]
      rw [e]; rfl
  · intro hx
    rw [summarize_allTests_ids] at hx
    have hu : x ∉ processedUnion tid s := fun h => hx (hsub x h)
    have habf : x ∉ (summarize tid docFor s entity).aborted := by
      rw [hab]; exact fun h => hx h.1
    have n1 : x ∉ s.errors.map (fun p => tid p.1) := fun h =>
      hu ((mem_processedUnion_iff tid s x).mpr (Or.inl h))
    have n2 : x ∉ s.failures.map (fun p => tid p.1) := fun h =>
      hu ((mem_processedUnion_iff tid s x).mpr (Or.inr (Or.inl h)))
    have n3 : x ∉ s.successes.map tid := fun h =>
      hu ((mem_processedUnion_iff tid s x).mpr (Or.inr (Or.inr (Or.inl h))))
    have n4 : x ∉ s.skipped.map (fun p => tid p.1) := fun h =>
      hu ((mem_processedUnion_iff tid s x).mpr (Or.inr (Or.inr (Or.inr (Or.inl h)))))
    have n5 : x ∉ s.expectedFailures.map (fun p => tid p.1) := fun h =>
      hu ((mem_processedUnion_iff tid s x).mpr
        (Or.inr (Or.inr (Or.inr (Or.inr (Or.inl h))))))
    have n6 : x ∉ s.unexpectedSuccesses.map tid := fun h =>
      hu ((mem_processedUnion_iff tid s x).mpr
        (Or.inr (Or.inr (Or.inr (Or.inr (Or.inr h))))))
    have e : categoryFlags (summarize tid docFor s entity) x =
        [false, false, false, false, false, false, false] := by
      simp only [categoryFlags, summarize_errors_keys, summarize_failures_keys,
        summarize_successes_ids, summarize_skipped_keys,
        summarize_expectedFailures_keys, summarize_unexpectedSuccesses_ids,
        decide_eq_false n1, decide_eq_false n2, decide_eq_false n3,
        decide_eq_false n4, decide_eq_false n5, decide_eq_false n6,
        decide_eq_false habf]
    rw [e]; rfl

theorem summarize_partitions_allTests_witness :
    isPartitionOfAllTests (summarize (fun x => x) (fun _ => none)
      (⟨true, [("t2", "trace")], [], ["t1"], [], [], []⟩ : TestState String)
      (TestEntity.suite [TestEntity.case () "t1", TestEntity.case () "t2",
        TestEntity.case () "t3"])) :=
  summarize_partitions_allTests _ _ _ _ rfl
    (by simp only [containsAllRecorded]; decide)
    (by simp [noDoubleRecord, recordedKeyLists, List.pairwise_cons, List.Disjoint])

/-- C1 counterexample: the partition claim fails for an aggregator state as
such, without the no-double-record invariant: a state whose `failures` and
`successes` lists both record the test id `"t"` (reachable by `addSuccess`
then `addFailure` before freezing) yields a Summary placing `"t"` in two of
the seven categories, even though the known test set contains all recorded
ids. -/
theorem summarize_partition_counterexample :
    (⟨true, [], [("t", "boom")], ["t"], [], [], []⟩ : TestState String).frozen = true ∧
      containsAllRecorded (fun x => x)
        (⟨true, [], [("t", "boom")], ["t"], [], [], []⟩ : TestState String)
        (TestEntity.suite [TestEntity.case () "t"]) ∧
      ¬ isPartitionOfAllTests (summarize (fun x => x) (fun _ => none)
        (⟨true, [], [("t", "boom")], ["t"], [], [], []⟩ : TestState String)
        (TestEntity.suite [TestEntity.case () "t"])) := by
  refine ⟨rfl, by simp only [containsAllRecorded]; decide, fun h => ?_⟩
  have h2 := (h "t").1 (by decide)
  exact absurd h2 (by decide)

/-- The loop body of `process_test_cases` (runner.py lines 263-270) over the
children of a suite: a test-case child whose class is not yet in the
`already_processed` set triggers one class-method call (recorded in the
returned list, in invocation order) and adds its class to the set; a suite
child is recursed into.  Returns the calls made and the final set. -/
def processChildren {C T : Type u} [DecidableEq C] :
    List (TestEntity C T) → Finset C → List C × Finset C
  | [], ap => ([], ap)
  | .case c _ :: rest, ap =>
    if c ∈ ap then processChildren rest ap
    else
      let r := processChildren rest (insert c ap)
      (c :: r.1, r.2)
  | .suite ts :: rest, ap =>
    let r := processChildren ts ap
    let r2 := processChildren rest r.2
    (r.1 ++ r2.1, r2.2)

/-- `TimeoutTestRunner.process_test_cases(entity, func_name, already_processed)`
(runner.py lines 258-272): raise unless the entity is a TestSuite; otherwise
walk its children as in `processChildren`.  The class method being invoked
(`setUpClass` or `tearDownClass`) only matters as an effect, so the result
records the classes it was invoked on. -/
def processTestCases {C T : Type u} [DecidableEq C] :
    TestEntity C T → Finset C → Except String (List C × Finset C)
  | .case _ _, _ => .error "Unknow object encountered in the TestSuite!"
  | .suite ts, ap => .ok (processChildren ts ap)

/-- The set of test-case classes occurring in a list of suite children. -/
def classesOfList {C T : Type u} [DecidableEq C] :
    List (TestEntity C T) → Finset C
  | [] => ∅
  | .case c _ :: rest => insert c (classesOfList rest)
  | .suite ts :: rest => classesOfList ts ∪ classesOfList rest

lemma processChildren_spec {C T : Type u} [DecidableEq C] :
    ∀ (ts : List (TestEntity C T)) (ap : Finset C),
      (processChildren ts ap).2 = ap ∪ classesOfList ts ∧
        (processChildren ts ap).1.Nodup ∧
        ∀ c : C, c ∈ (processChildren ts ap).1 ↔
          c ∈ classesOfList ts ∧ c ∉ ap
  | [], ap => by simp [processChildren, classesOfList]
  | .case c t :: rest, ap => by
    by_cases hc : c ∈ ap
    · obtain ⟨ih1, ih2, ih3⟩ := processChildren_spec rest ap
      have hred : processChildren (.case c t :: rest) ap = processChildren rest ap := by
        simp [processChildren, hc]
      rw [hred, classesOfList]
      refine ⟨?_, ih2, ?_⟩
      · rw [ih1]
        ext y
        simp only [Finset.mem_union, Finset.mem_insert]
        constructor
        · tauto
        · rintro (h | h | h)
          · exact Or.inl h
          · exact Or.inl (h ▸ hc)
          · exact Or.inr h
      · intro y
        rw [ih3]
        simp only [Finset.mem_insert]
        constructor
        · tauto
        · rintro ⟨h | h, hy⟩
          · exact absurd (h ▸ hc) hy
          · exact ⟨h, hy⟩
    · obtain ⟨ih1, ih2, ih3⟩ := processChildren_spec rest (insert c ap)
      have hred : processChildren (.case c t :: rest) ap =
          (c :: (processChildren rest (insert c ap)).1,
            (processChildren rest (insert c ap)).2) := by
        simp [processChildren, hc]
      rw [hred, classesOfList]
      refine ⟨?_, ?_, ?_⟩
      · show (processChildren rest (insert c ap)).2 = ap ∪ insert c (classesOfList rest)
        rw [ih1]
        ext y
        simp only [Finset.mem_union, Finset.mem_insert]
        tauto
      · show (c :: (processChildren rest (insert c ap)).1).Nodup
        refine List.nodup_cons.mpr ⟨fun hmem => ?_, ih2⟩
        exact ((ih3 c).mp hmem).2 (Finset.mem_insert_self c ap)
      · intro y
        show y ∈ c :: (processChildren rest (insert c ap)).1 ↔
          y ∈ insert c (classesOfList rest) ∧ y ∉ ap
        rw [List.mem_cons, ih3]
        simp only [Finset.mem_insert]
        constructor
        · rintro (rfl | ⟨hy, hni⟩)
          · exact ⟨Or.inl rfl, hc⟩
          · exact ⟨Or.inr hy, fun hap => hni (Or.inr hap)⟩
        · rintro ⟨rfl | hy, hap⟩
          · exact Or.inl rfl
          · by_cases hyc : y = c
            · exact Or.inl hyc
            · exact Or.inr ⟨hy, by simp [Finset.mem_insert, hyc, hap]⟩
  | .suite ts :: rest, ap => by
    obtain ⟨ihA1, ihA2, ihA3⟩ := processChildren_spec ts ap
    obtain ⟨ihB1, ihB2, ihB3⟩ := processChildren_spec rest (processChildren ts ap).2
    have hred : processChildren (.suite ts :: rest) ap =
        ((processChildren ts ap).1 ++
            (processChildren rest (processChildren ts ap).2).1,
          (processChildren rest (processChildren ts ap).2).2) := by
      simp [processChildren]
    have ihB3x : ∀ y : C, y ∈ (processChildren rest (processChildren ts ap).2).1 ↔
        y ∈ classesOfList rest ∧ ¬(y ∈ ap ∨ y ∈ classesOfList ts) := by
      intro y
      rw [ihB3, ihA1]
      simp only [Finset.mem_union]
    rw [hred, classesOfList]
    refine ⟨?_, ?_, ?_⟩
    · show (processChildren rest (processChildren ts ap).2).2 =
        ap ∪ (classesOfList ts ∪ classesOfList rest)
      rw [ihB1, ihA1, Finset.union_assoc]
    · show ((processChildren ts ap).1 ++
        (processChildren rest (processChildren ts ap).2).1).Nodup
      refine List.nodup_append.mpr ⟨ihA2, ihB2, fun y hy1 hy2 => ?_⟩
      exact (((ihB3x y).mp hy2).2) (Or.inr ((ihA3 y).mp hy1).1)
    · intro y
      show y ∈ (processChildren ts ap).1 ++
          (processChildren rest (processChildren ts ap).2).1 ↔
        y ∈ classesOfList ts ∪ classesOfList rest ∧ y ∉ ap
      rw [List.mem_append, ihA3, ihB3x]
      simp only [Finset.mem_union]
      constructor
      · rintro (⟨hy, hap⟩ | ⟨hy, hni⟩)
        · exact ⟨Or.inl hy, hap⟩
        · exact ⟨Or.inr hy, fun h => hni (Or.inl h)⟩
      · rintro ⟨hy | hy, hap⟩
        · exact Or.inl ⟨hy, hap⟩
        · by_cases hyA : y ∈ classesOfList ts
          · exact Or.inl ⟨hyA, hap⟩
          · exact Or.inr ⟨hy, fun h => h.elim hap hyA⟩

/-- Observable behaviour of one `TimeoutTestRunner.run` call (runner.py lines
274-287): the classes on which `setUpClass` was invoked, the classes on which
`tearDownClass` was invoked, the aggregator state at the moment it is frozen
(line 285), and what the function call itself produces.  Because line 287 is
`return resulti` with `resulti` an unbound name, the produced value is an
exception, modelled in `retval`. -/
structure RunTrace (C T : Type u) where
  setupCalls : List C
  teardownCalls : List C
  frozenResult : TestState T
  retval : Except String (TestState T)

/-- `TimeoutTestRunner.run(test_entity, verbose)` (runner.py lines 274-287):
process `setUpClass` over the suite (with the module-level default
`already_processed` set, empty in a fresh process), drive the test tasks
through the thread group (`driveTests` maps the fresh aggregator to the state
it has reached when the group stops; scheduling is abstracted into this
parameter), freeze the aggregator, process `tearDownClass` over the suite
with the same shared `already_processed` set left by the first pass, and
finally execute `return resulti`, which raises `NameError` because only
`result` is bound. -/
def TimeoutTestRunner.run {C T : Type u} [DecidableEq C]
    (driveTests : TestState T → TestState T) (entity : TestEntity C T) :
    Except String (RunTrace C T) :=
  match processTestCases entity (∅ : Finset C) with
  | .error e => .error e
  | .ok su =>
    match processTestCases entity su.2 with
    | .error e => .error e
    | .ok td =>
      .ok { setupCalls := su.1, teardownCalls := td.1,
            frozenResult := freeze (driveTests initTestState),
            retval := .error "NameError: name resulti is not defined" }

/-- C3 (evaluation of the defect): for every test suite and every scheduling
outcome, `TimeoutTestRunner.run` freezes the aggregator but then raises
`NameError` at `return resulti` (runner.py line 287, where only `result` is
bound), so it never returns the collected result aggregator. -/
theorem run_never_returns_aggregator {C T : Type u} [DecidableEq C]
    (driveTests : TestState T → TestState T) (ts : List (TestEntity C T))
    (tr : RunTrace C T)
    (h : TimeoutTestRunner.run driveTests (.suite ts) = .ok tr) :
    tr.retval = .error "NameError: name resulti is not defined" ∧
      tr.frozenResult.frozen = true := by
  simp only [TimeoutTestRunner.run, processTestCases] at h
  cases h
  exact ⟨rfl, rfl⟩

theorem run_never_returns_aggregator_witness :
    (⟨[], [], freeze initTestState,
        Except.error "NameError: name resulti is not defined"⟩ :
        RunTrace Unit Unit).retval =
      .error "NameError: name resulti is not defined" ∧
    (⟨[], [], freeze initTestState,
        Except.error "NameError: name resulti is not defined"⟩ :
        RunTrace Unit Unit).frozenResult.frozen = true :=
  run_never_returns_aggregator (fun s => s) [] _
    (by simp [TimeoutTestRunner.run, processTestCases, processChildren])

/-- C4 (evaluation of the defect): in one `TimeoutTestRunner.run` call on a
suite, `setUpClass` is invoked exactly once per distinct test class (the
calls list has no duplicates and covers exactly the classes of the suite),
but `tearDownClass` is invoked on no class at all: the `setUpClass` pass and
the `tearDownClass` pass share the mutable default `already_processed=set()`
of `process_test_cases` (runner.py line 259), so by the time the teardown
pass runs, every class of the suite is already marked processed. -/
theorem run_setupClass_once_tearDownClass_never {C T : Type u} [DecidableEq C]
    (driveTests : TestState T → TestState T) (ts : List (TestEntity C T))
    (tr : RunTrace C T)
    (h : TimeoutTestRunner.run driveTests (.suite ts) = .ok tr) :
    tr.setupCalls.Nodup ∧ tr.setupCalls.toFinset = classesOfList ts ∧
      tr.teardownCalls = [] := by
  simp only [TimeoutTestRunner.run, processTestCases] at h
  cases h
  obtain ⟨h1, h2, h3⟩ := processChildren_spec ts (∅ : Finset C)
  have hfull : (processChildren ts (∅ : Finset C)).2 = classesOfList ts := by
    rw [h1, Finset.empty_union]
  obtain ⟨g1, g2, g3⟩ := processChildren_spec ts (processChildren ts (∅ : Finset C)).2
  refine ⟨h2, ?_, ?_⟩
  · ext y
    rw [List.mem_toFinset, h3]
    simp
  · refine List.eq_nil_iff_forall_not_mem.mpr fun y hy => ?_
    have := (g3 y).mp hy
    rw [hfull] at this
    exact this.2 this.1

theorem run_setupClass_once_tearDownClass_never_witness :
    ([1, 2] : List ℕ).Nodup ∧
      ([1, 2] : List ℕ).toFinset =
        classesOfList [TestEntity.case 1 (), TestEntity.case 1 (),
          TestEntity.case 2 ()] ∧
      ([] : List ℕ) = [] := by
  have h : TimeoutTestRunner.run (fun s => s)
      (TestEntity.suite [TestEntity.case 1 (), TestEntity.case 1 (),
        TestEntity.case 2 ()]) =
      .ok (⟨[1, 2], [], freeze initTestState,
        Except.error "NameError: name resulti is not defined"⟩ :
        RunTrace ℕ Unit) := by
    simp [TimeoutTestRunner.run, processTestCases, processChildren]
  exact run_setupClass_once_tearDownClass_never (fun s => s) _ _ h

/-- State of one `distribute_system_command` run (executor.py lines 13-56):
the shared queue of (ordinal, job) pairs still to be claimed, the jobs popped
by some worker but not yet recorded, and the shared `results` list of
(ordinal, outcome) pairs in completion order.  `α` is the job parameter
tuple, `β` the value stored for a finished job. -/
structure DispState (α β : Type u) where
  queue : List (ℕ × α)
  inFlight : List (ℕ × α)
  results : List (ℕ × β)

/-- The initial state: `queue = zip(range(count), params)` (executor.py line
18), nothing in flight, no results. -/
def initDisp {α β : Type u} (jobs : List α) : DispState α β :=
  ⟨jobs.enum, [], []⟩

/-- One atomic action of a worker thread in `distribute_system_command`.
`pop` is the exclusive `queue.pop()` under `queue_lock` (lines 28-30), which
removes the LAST element of the Python list; `finish` is the recording of a
claimed job's outcome under `results_lock` (lines 41-42), appending
`(id, outcome)` to the shared results.  Workers interleave arbitrarily, so
completion order is unconstrained. -/
inductive DispStep {α β : Type u} (outcome : α → β) :
    DispState α β → DispState α β → Prop where
  | pop (q : List (ℕ × α)) (item : ℕ × α) (fl : List (ℕ × α))
      (res : List (ℕ × β)) :
      DispStep outcome ⟨q ++ [item], fl, res⟩ ⟨q, item :: fl, res⟩
  | finish (q : List (ℕ × α)) (fl1 fl2 : List (ℕ × α)) (item : ℕ × α)
      (res : List (ℕ × β)) :
      DispStep outcome ⟨q, fl1 ++ item :: fl2, res⟩
        ⟨q, fl1 ++ fl2, res ++ [(item.1, outcome item.2)]⟩

/-- Reachability under arbitrary worker interleavings. -/
def DispReach {α β : Type u} (outcome : α → β) :
    DispState α β → DispState α β → Prop :=
  Relation.ReflTransGen (DispStep outcome)

/-- The value returned by `distribute_system_command` (executor.py line 56):
`sorted(results, key=lambda r: r[0])` projected to the outcomes.  Python
`sorted` is a stable sort on the key, modelled by `mergeSort` on the first
components. -/
def dispatchReturn {α β : Type u} (s : DispState α β) : List β :=
  (s.results.mergeSort (fun a b => decide (a.1 ≤ b.1))).map Prod.snd

/-- The multiset of job records (queued, in flight, or completed, each mapped
to its eventual record) is preserved by every step. -/
lemma dispStep_perm {α β : Type u} (outcome : α → β) {s1 s2 : DispState α β}
    (h : DispStep outcome s1 s2) :
    ((s2.queue ++ s2.inFlight).map (fun p => (p.1, outcome p.2)) ++
        s2.results).Perm
      ((s1.queue ++ s1.inFlight).map (fun p => (p.1, outcome p.2)) ++
        s1.results) := by
  cases h with
  | pop q item fl res =>
    simp only [List.append_assoc, List.singleton_append]
    exact List.Perm.refl _
  | finish q fl1 fl2 item res =>
    simp only [List.map_append, List.map_cons, List.append_assoc]
    refine List.Perm.append_left _ (List.Perm.append_left _ ?_)
    rw [show List.map (fun p => (p.1, outcome p.2)) fl2 ++
        (res ++ [(item.1, outcome item.2)]) =
        (List.map (fun p => (p.1, outcome p.2)) fl2 ++ res) ++
          [(item.1, outcome item.2)] from by rw [List.append_assoc]]
    exact List.perm_append_singleton _ _

lemma dispReach_perm {α β : Type u} (outcome : α → β) {s1 s2 : DispState α β}
    (h : DispReach outcome s1 s2) :
    ((s2.queue ++ s2.inFlight).map (fun p => (p.1, outcome p.2)) ++
        s2.results).Perm
      ((s1.queue ++ s1.inFlight).map (fun p => (p.1, outcome p.2)) ++
        s1.results) := by
  induction h with
  | refl => exact List.Perm.refl _
  | tail hsteps hstep ih => exact (dispStep_perm outcome hstep).trans ih

lemma sorted_fst_lt_enumFrom {γ : Type u} :
    ∀ (n : ℕ) (l : List γ),
      List.Sorted (fun a b : ℕ × γ => a.1 < b.1) (List.enumFrom n l)
  | _, [] => List.sorted_nil
  | n, x :: xs => by
    rw [List.enumFrom]
    refine List.sorted_cons.mpr ⟨?_, sorted_fst_lt_enumFrom (n + 1) xs⟩
    rintro ⟨i, y⟩ hb
    have := (List.mem_enumFrom hb).1
    simpa using this

lemma sorted_fst_lt_enum {γ : Type u} (l : List γ) :
    List.Sorted (fun a b : ℕ × γ => a.1 < b.1) l.enum :=
  sorted_fst_lt_enumFrom 0 l

/-- C5: for every job list and every interleaving of worker pops and
completions that drains the queue and the in-flight set,
`distribute_system_command` returns exactly one outcome per job, and the
i-th returned element is the outcome of the i-th submitted job — submission
order, not completion order; moreover the recorded ordinals are exactly
`0, …, N-1`, each exactly once (every job is claimed and recorded by exactly
one worker). -/
theorem dispatch_returns_in_submission_order {α β : Type u} (jobs : List α)
    (outcome : α → β) (s : DispState α β)
    (hreach : DispReach outcome (initDisp jobs) s)
    (hq : s.queue = []) (hfl : s.inFlight = []) :
    dispatchReturn s = jobs.map outcome ∧
      (dispatchReturn s).length = jobs.length ∧
      (s.results.map Prod.fst).Perm (List.range jobs.length) := by
  have hperm0 := dispReach_perm outcome hreach
  rw [hq, hfl] at hperm0
  have hres : s.results.Perm
      (jobs.enum.map (fun p => (p.1, outcome p.2))) := by
    simpa [initDisp] using hperm0
  have hcanon : jobs.enum.map (fun p => (p.1, outcome p.2)) =
      (jobs.map outcome).enum := by
    rw [List.enum_map]
    refine List.map_congr_left fun p _ => ?_
    cases p
    rfl
  have hresC : s.results.Perm ((jobs.map outcome).enum) := hcanon ▸ hres
  have hLperm : (s.results.mergeSort (fun a b => decide (a.1 ≤ b.1))).Perm
      ((jobs.map outcome).enum) :=
    (List.mergeSort_perm s.results _).trans hresC
  have hLe : List.Pairwise (fun a b : ℕ × β => a.1 ≤ b.1)
      (s.results.mergeSort (fun a b => decide (a.1 ≤ b.1))) := by
    have := @List.sorted_mergeSort (ℕ × β)
      (fun a b : ℕ × β => decide (a.1 ≤ b.1))
      (fun a b c hab hbc => by
        simp only [decide_eq_true_eq] at hab hbc ⊢
        omega)
      (fun a b => by
        simp only [Bool.or_eq_true, decide_eq_true_eq]
        omega)
      s.results
    exact this.imp fun h => by simpa using h
  have hnodupkeys :
      (((s.results.mergeSort (fun a b => decide (a.1 ≤ b.1))).map
        Prod.fst)).Nodup := by
    have hcn : (((jobs.map outcome).enum).map Prod.fst).Nodup := by
      rw [List.enum_map_fst]
      exact List.nodup_range _
    exact (hLperm.map Prod.fst).nodup_iff.mpr hcn
  have hne : List.Pairwise (fun a b : ℕ × β => a.1 ≠ b.1)
      (s.results.mergeSort (fun a b => decide (a.1 ≤ b.1))) :=
    List.pairwise_map.mp hnodupkeys
  have hsortedL : List.Sorted (fun a b : ℕ × β => a.1 < b.1)
      (s.results.mergeSort (fun a b => decide (a.1 ≤ b.1))) :=
    (hLe.and hne).imp fun h => lt_of_le_of_ne h.1 h.2
  haveI : IsAntisymm (ℕ × β) (fun a b => a.1 < b.1) :=
    ⟨fun a b h1 h2 => absurd h1 (Nat.lt_asymm h2)⟩
  have hEq : s.results.mergeSort (fun a b => decide (a.1 ≤ b.1)) =
      (jobs.map outcome).enum :=
    List.eq_of_perm_of_sorted hLperm hsortedL (sorted_fst_lt_enum _)
  have hret : dispatchReturn s = jobs.map outcome := by
    rw [dispatchReturn, hEq, List.enum_map_snd]
  refine ⟨hret, by rw [hret]; simp, ?_⟩
  have hkeys := hresC.map Prod.fst
  rw [List.enum_map_fst, List.length_map] at hkeys
  exact hkeys

theorem dispatch_returns_in_submission_order_witness :
    dispatchReturn (⟨[], [], [(1, 21), (0, 11)]⟩ : DispState ℕ ℕ) =
      [10, 20].map (fun n => n + 1) := by
  have h1 : DispStep (fun n => n + 1) (initDisp [10, 20])
      (⟨[(0, 10)], [(1, 20)], []⟩ : DispState ℕ ℕ) :=
    DispStep.pop [(0, 10)] (1, 20) [] []
  have h2 : DispStep (fun n => n + 1)
      (⟨[(0, 10)], [(1, 20)], []⟩ : DispState ℕ ℕ)
      (⟨[], [(0, 10), (1, 20)], []⟩ : DispState ℕ ℕ) :=
    DispStep.pop [] (0, 10) [(1, 20)] []
  have h3 : DispStep (fun n => n + 1)
      (⟨[], [(0, 10), (1, 20)], []⟩ : DispState ℕ ℕ)
      (⟨[], [(0, 10)], [(1, 21)]⟩ : DispState ℕ ℕ) :=
    DispStep.finish [] [(0, 10)] [] (1, 20) []
  have h4 : DispStep (fun n => n + 1)
      (⟨[], [(0, 10)], [(1, 21)]⟩ : DispState ℕ ℕ)
      (⟨[], [], [(1, 21), (0, 11)]⟩ : DispState ℕ ℕ) :=
    DispStep.finish [] [] [] (0, 10) [(1, 21)]
  exact (dispatch_returns_in_submission_order [10, 20] (fun n => n + 1) _
    (Relation.ReflTransGen.tail (Relation.ReflTransGen.tail
      (Relation.ReflTransGen.tail (Relation.ReflTransGen.tail
        Relation.ReflTransGen.refl h1) h2) h3) h4) rfl rfl).1

/-- The entry appended to the shared `results` list for one finished job
(executor.py lines 32-42): after the poll loop, whether or not the job timed
out (`timedOut` true when `r.poll()` was still `None` at the timeout, in
which case the process is terminated and a console line is printed), the
appended entry is `(id, r)` with `r` the same process handle object in both
branches — no exit status and no timed-out marker is stored.  `H` is the
opaque type of process handles (`subprocess.Popen` objects). -/
def storedJobResult {H : Type u} (ordinal : ℕ) (handle : H) (_timedOut : Bool) :
    ℕ × H :=
  (ordinal, handle)

/-- Console lines printed by the poll phase of one job (executor.py lines
38-40): `Task timed-out` on timeout, nothing otherwise.  These go to the
operator console, not into the returned results. -/
def timeoutConsoleLines (timedOut : Bool) : List String :=
  if timedOut then ["Task timed-out"] else []

/-- C6 as stated: some decision procedure recovers, from a returned result
entry alone, whether the corresponding job timed out. -/
def resultsDistinguishTimeout (H : Type u) : Prop :=
  ∃ f : ℕ × H → Bool,
    ∀ (ordinal : ℕ) (handle : H) (timedOut : Bool),
      f (storedJobResult ordinal handle timedOut) = timedOut

/-- C6 counterexample: no function of the returned entry can tell a
timed-out job from one that exited, because the entry stored for job 0 with
handle 0 is literally the same whether it timed out or not. -/
theorem results_distinguish_timeout_counterexample :
    storedJobResult 0 (0 : ℕ) true = storedJobResult 0 (0 : ℕ) false ∧
      ¬ resultsDistinguishTimeout ℕ := by
  refine ⟨rfl, ?_⟩
  rintro ⟨f, hf⟩
  have h1 := hf 0 0 true
  have h2 := hf 0 0 false
  have heq : storedJobResult 0 (0 : ℕ) true = storedJobResult 0 (0 : ℕ) false := rfl
  rw [heq, h2] at h1
  exact Bool.false_ne_true h1

/-- C6 (amended): the outcome recorded and returned for each job is the bare
`(ordinal, handle)` pair, identical whether or not the job timed out; a
timeout is surfaced only by terminating the process and printing the console
line `Task timed-out`, so the returned results alone carry no timed-out
marker and no exit status. -/
theorem storedJobResult_no_timeout_marker {H : Type u} (ordinal : ℕ)
    (handle : H) :
    storedJobResult ordinal handle true = storedJobResult ordinal handle false ∧
      "Task timed-out" ∈ timeoutConsoleLines true ∧
      timeoutConsoleLines false = [] :=
  ⟨rfl, by simp [timeoutConsoleLines], rfl⟩

/-- One progress line of `distribute_system_command`. -/
structure ProgressLine where
  done : ℕ
  total : ℕ
  approxLeft : ℚ
deriving DecidableEq

/-- The progress line printed after recording one finished job (executor.py
lines 43-48), computed from the shared state with the new entry already
appended: `tasks_done = len(results)`, `avg_time = time_elapsed /
len(results)`, and the projection `avg_time * (total_task_count -
tasks_done) / 60`.  Wall-clock elapsed seconds are passed in as `elapsed`
(an exact rational; CPython computes the same expression in floating
point). -/
def emitProgress {β : Type u} (resultsAfter : List (ℕ × β)) (total : ℕ)
    (elapsed : ℚ) : ProgressLine :=
  { done := resultsAfter.length
    total := total
    approxLeft := elapsed / (resultsAfter.length : ℚ) *
      ((total : ℚ) - (resultsAfter.length : ℚ)) / 60 }

/-- The projection formula as the spec words it: after completing k of N
jobs with elapsed time E, the projected remaining time is (E/k) × (N − k),
converted to minutes by dividing by 60. -/
def specProjection (E : ℚ) (k N : ℕ) : ℚ :=
  E / (k : ℚ) * ((N : ℚ) - (k : ℚ)) / 60

/-- C7: after each completion, with k > 0 the number of recorded jobs
(including the one just finished) and E the elapsed time since dispatch
start, the emitted progress line reports k of N and a projected remaining
time equal to (E/k) × (N − k) divided by 60, recomputed from the current
results list. -/
theorem emitProgress_eq_specProjection {β : Type u} (res : List (ℕ × β))
    (total : ℕ) (E : ℚ) (k : ℕ) (hk : res.length = k) (hpos : 0 < k) :
    emitProgress res total E = ⟨k, total, specProjection E k total⟩ := by
  subst hk
  rfl

theorem emitProgress_eq_specProjection_witness :
    emitProgress ([(0, 0), (1, 0)] : List (ℕ × ℕ)) 10 30 =
      ⟨2, 10, specProjection 30 2 10⟩ :=
  emitProgress_eq_specProjection _ _ _ _ rfl (by decide)

/-- The facts about the environment that drive the control flow of
`process_one_submission` (runner.py lines 290-345): whether the result file
already exists, whether the test root is a directory, whether overwrite was
requested, the basename displayed in messages, and whether importing the
test module raises. -/
structure SubmissionEnv where
  resultFileExists : Bool
  testRootIsDir : Bool
  overwrite : Bool
  basename : String
  importFails : Bool
deriving DecidableEq

/-- An observable effect of `process_one_submission`, in program order. -/
inductive SubEffect where
  | redirectConsole
  | display (msg : String)
  | closeStdout
  | appendSysPath
  | importModule
  | runTests
  | writeResultFile
deriving DecidableEq

/-- How one `process_one_submission` call ends: an explicit `exit(code)`, an
uncaught exception, or a normal return. -/
inductive SubOutcome where
  | exitWith (code : Int)
  | raised (msg : String)
  | finished
deriving DecidableEq

/-- `process_one_submission(...)` (runner.py lines 290-345) as an effect
trace plus outcome: redirect the console; strip a `.py` suffix; if the
result file exists and overwrite was not requested, display that results
exist, close stdout and `exit(1)` (lines 305-308); append the cwd to
`sys.path` (line 313); raise if the test root is not a directory (lines
316-318); append the test root, import the module (which may itself raise,
failing the job) and load its tests (lines 322-326); then call
`TimeoutTestRunner(timeout).run(tests, verbose)` (line 327), which drives
the tests but raises `NameError` at its `return resulti` (line 287) — so
`summarize`, the result-file write and the exit-status logic of lines
328-345 are never reached on this path. -/
def process_one_submission (env : SubmissionEnv) :
    List SubEffect × SubOutcome :=
  if env.resultFileExists ∧ ¬ env.overwrite then
    ([.redirectConsole,
      .display ("Results already exist for " ++ env.basename), .closeStdout],
      .exitWith 1)
  else if ¬ env.testRootIsDir then
    ([.redirectConsole, .appendSysPath, .closeStdout],
      .raised "Invalid test_root")
  else if env.importFails then
    ([.redirectConsole, .appendSysPath, .appendSysPath, .importModule],
      .raised "ImportError")
  else
    ([.redirectConsole, .appendSysPath, .appendSysPath, .importModule,
      .runTests],
      .raised "NameError: name resulti is not defined")

/-- C8 (evaluation of the defect): when the result file exists and overwrite
was not requested, the job runs no tests, writes no result file, reports
that results exist and exits with status 1.  When overwrite is requested
(valid test root, importable module), the tests are driven — but the
existing result file is NOT replaced: the run raises `NameError` (runner.py
line 287) before any result is written. -/
theorem process_one_submission_existing_results (env : SubmissionEnv) :
    (env.resultFileExists = true → env.overwrite = false →
      process_one_submission env =
        ([.redirectConsole,
          .display ("Results already exist for " ++ env.basename),
          .closeStdout], .exitWith 1) ∧
        SubEffect.runTests ∉ (process_one_submission env).1 ∧
        SubEffect.writeResultFile ∉ (process_one_submission env).1) ∧
    (env.overwrite = true → env.testRootIsDir = true →
      env.importFails = false →
      SubEffect.runTests ∈ (process_one_submission env).1 ∧
      SubEffect.writeResultFile ∉ (process_one_submission env).1 ∧
      (process_one_submission env).2 =
        .raised "NameError: name resulti is not defined") := by
  constructor
  · intro h1 h2
    simp [process_one_submission, h1, h2]
  · intro h1 h2 h3
    simp [process_one_submission, h1, h2, h3]

theorem process_one_submission_existing_results_witness :
    (process_one_submission ⟨true, true, false, "sub1", false⟩ =
        ([.redirectConsole, .display ("Results already exist for " ++ "sub1"),
          .closeStdout], .exitWith 1) ∧
      SubEffect.runTests ∉
        (process_one_submission ⟨true, true, false, "sub1", false⟩).1 ∧
      SubEffect.writeResultFile ∉
        (process_one_submission ⟨true, true, false, "sub1", false⟩).1) ∧
    (SubEffect.runTests ∈
        (process_one_submission ⟨true, true, true, "sub1", false⟩).1 ∧
      SubEffect.writeResultFile ∉
        (process_one_submission ⟨true, true, true, "sub1", false⟩).1 ∧
      (process_one_submission ⟨true, true, true, "sub1", false⟩).2 =
        .raised "NameError: name resulti is not defined") :=
  ⟨(process_one_submission_existing_results ⟨true, true, false, "sub1", false⟩).1
      rfl rfl,
    (process_one_submission_existing_results ⟨true, true, true, "sub1", false⟩).2
      rfl rfl rfl⟩

/-- The per-category counts line displayed after writing the summary
(runner.py lines 336-340). -/
def summaryLine (basename : String) (sm : Summary) : String :=
  basename ++ ": Successful=" ++ toString sm.successes.length ++ "/" ++
    toString sm.allTests.length ++ ", Errors=" ++
    toString sm.errors.length ++ "/" ++ toString sm.allTests.length ++
    ", Failed=" ++ toString sm.failures.length ++ "/" ++
    toString sm.allTests.length ++ ", Aborted=" ++
    toString sm.aborted.length ++ "/" ++ toString sm.allTests.length ++
    ", Skipped=" ++ toString sm.skipped.length ++ "/" ++
    toString sm.allTests.length

/-- The tail of `process_one_submission` from the point where the Summary
has been computed (runner.py lines 330-345), as a function of that summary:
write the summary JSON to the result file, display the per-category counts,
and if the aborted list is non-empty close stdout and `exit(2)`; otherwise
close stdout and return normally.  (In the current code this point is
unreachable, because `TimeoutTestRunner.run` raises at line 287.) -/
def finishSubmission (basename : String) (sm : Summary) :
    List SubEffect × SubOutcome :=
  if 0 < sm.aborted.length then
    ([.writeResultFile, .display (summaryLine basename sm), .closeStdout],
      .exitWith 2)
  else
    ([.writeResultFile, .display (summaryLine basename sm), .closeStdout],
      .finished)

/-- C10: whenever the summary point is reached, the summary-file write is
the first effect (it precedes the exit-status decision), and the job exits
with status 2 exactly when the aborted set is non-empty, falling through to
a normal exit otherwise. -/
theorem finishSubmission_exit_two_iff_aborted (basename : String)
    (sm : Summary) :
    (finishSubmission basename sm).1.head? = some .writeResultFile ∧
      ((finishSubmission basename sm).2 = .exitWith 2 ↔ sm.aborted ≠ []) ∧
      (sm.aborted = [] → (finishSubmission basename sm).2 = .finished) := by
  cases h : sm.aborted with
  | nil => simp [finishSubmission, h]
  | cons a l => simp [finishSubmission, h]

theorem finishSubmission_exit_two_iff_aborted_witness :
    ((finishSubmission "sub1"
        ⟨[], [], [], [], [], [], [("m.c.f", none)], ["m.c.f"]⟩).1.head? =
      some .writeResultFile ∧
      ((finishSubmission "sub1"
          ⟨[], [], [], [], [], [], [("m.c.f", none)], ["m.c.f"]⟩).2 =
          .exitWith 2 ↔
        (⟨[], [], [], [], [], [], [("m.c.f", none)], ["m.c.f"]⟩ :
          Summary).aborted ≠ []) ∧
      ((⟨[], [], [], [], [], [], [("m.c.f", none)], ["m.c.f"]⟩ :
          Summary).aborted = [] →
        (finishSubmission "sub1"
          ⟨[], [], [], [], [], [], [("m.c.f", none)], ["m.c.f"]⟩).2 =
          .finished)) :=
  finishSubmission_exit_two_iff_aborted "sub1" _
